import Mathlib

/-
Shallow embedding of the BEAM email routing agent from src/app_emailtest.py
(class EmailRoutingAgent).  Python strings are modelled as `List Char`;
Python dictionaries holding the parsed email and the rule configuration are
modelled as structures whose optional keys become `Option` fields.  The
Python `str.lower` call is modelled on its ASCII behaviour, the only range
the configured keywords and domains exercise.  The `datetime.now()`
timestamp stored in a routing result is external real-time input and is
omitted from the embedding; no claim mentions it.
-/

/-- Convert a string literal to the `List Char` representation used
throughout the embedding. -/
def str (s : String) : List Char := s.data

/-- ASCII model of Python `str.lower` on a single character: the characters
`A`..`Z` (code points 65..90) are shifted to `a`..`z`; every other
character is unchanged. -/
def py_char_lower (c : Char) : Char :=
  if 65 ≤ c.toNat ∧ c.toNat ≤ 90 then Char.ofNat (c.toNat + 32) else c

/-- Python `str.lower`, applied characterwise. -/
def py_lower (s : List Char) : List Char := s.map py_char_lower

/-- Python substring containment `pat in text`. -/
def py_in (pat text : List Char) : Bool := decide (pat <:+: text)

/-- ASCII model of Python whitespace (space, tab, newline, carriage
return, vertical tab, form feed) as recognised by `str.strip`. -/
def py_is_space (c : Char) : Bool :=
  c == ' ' || c == '\t' || c == '\n' || c == '\r' ||
    c == Char.ofNat 11 || c == Char.ofNat 12

/-- Python `str.strip`: drop whitespace from both ends. -/
def py_strip (s : List Char) : List Char :=
  ((s.dropWhile py_is_space).reverse.dropWhile py_is_space).reverse

/-- Behaviour of `re.search(r'<([^>]+)>', s)` from
`EmailRoutingAgent.extract_from_domain`: scan left to right for a `<`
followed by at least one non-`>` character and then a `>`; return the
captured group (the maximal run of non-`>` characters after the `<`). -/
def angle_group : List Char → Option (List Char)
  | [] => none
  | c :: rest =>
    if c = '<' then
      let grp := rest.takeWhile (fun x => x != '>')
      if grp.isEmpty || (rest.dropWhile (fun x => x != '>')).isEmpty then
        angle_group rest
      else
        some grp
    else
      angle_group rest

/-- Behaviour of `re.search(r'@([^@]+)', s)` from
`EmailRoutingAgent.extract_from_domain`: scan left to right for an `@`
followed by at least one non-`@` character; return the captured group
(the maximal run of non-`@` characters after that `@`). -/
def at_group : List Char → Option (List Char)
  | [] => none
  | c :: rest =>
    if c = '@' then
      let grp := rest.takeWhile (fun x => x != '@')
      if grp.isEmpty then at_group rest else some grp
    else
      at_group rest

/-- Whether `re.search(r'@([^@]+)', l)` can match at all: true exactly
when some `@` in `l` is immediately followed by a non-`@` character. -/
def has_at_group : List Char → Bool
  | [] => false
  | [_] => false
  | c1 :: c2 :: rest => (c1 == '@' && c2 != '@') || has_at_group (c2 :: rest)

/-- The `RoutingQueue` enum of src/app_emailtest.py. -/
inductive RoutingQueue where
  | SHIPMENT_INITIATION_BRKG_INLAND_SI
  | ACCOUNT_INQUIRY_US
  | ORD_SI_NON_UPS_SHIPMENTS
  | RAFT_PRE_ALERT
  | RAFT_ARRIVAL_NOTICE
deriving DecidableEq

/-- The `.value` string of each `RoutingQueue` member. -/
def RoutingQueue.value : RoutingQueue → List Char
  | .SHIPMENT_INITIATION_BRKG_INLAND_SI => str "Shipment_Initiation_Brkg_Inland_SI"
  | .ACCOUNT_INQUIRY_US => str "Account_Inquiry_US"
  | .ORD_SI_NON_UPS_SHIPMENTS => str "ORD_SI-Non_UPS_Shipments"
  | .RAFT_PRE_ALERT => str "RAFT_PreAlert"
  | .RAFT_ARRIVAL_NOTICE => str "RAFT_ArrivalNotice"

/-- The parsed email record built by `EmailRoutingAgent.parse_eml_file`:
every field is present, defaulting to the empty string (resp. empty
list), exactly as the Python dictionary is initialised. -/
structure EmailData where
  message_id : List Char := []
  «from» : List Char := []
  «to» : List Char := []
  cc : List Char := []
  subject : List Char := []
  date : List Char := []
  reply_to : List Char := []
  priority : List Char := []
  body : List Char := []
  attachments : List (List Char) := []
  is_html : Bool := false
deriving DecidableEq

/-- The `conditions` dictionary of a routing rule.  A key that is absent
from the Python dictionary is `none` (resp. the `.get` default `false`
for the boolean keys `check_attachments` and `default`). -/
structure RuleConditions where
  subject_contains : Option (List (List Char)) := none
  check_attachments : Bool := false
  from_domain : Option (List Char) := none
  subject_or_body_contains : Option (List (List Char)) := none
  default : Bool := false
deriving DecidableEq

/-- One routing rule dictionary from
`EmailRoutingAgent._initialize_routing_rules`. -/
structure Rule where
  rule_id : Nat
  queue : RoutingQueue
  description : List Char
  scenario : List Char
  action : List Char
  priority : List Char
  sla : List Char
  conditions : RuleConditions
deriving DecidableEq

/-- The `subject_contains` keyword list of rule 2. -/
def account_inquiry_keywords : List (List Char) :=
  [str "power of attorney", str "poa", str "account needed", str "account setup"]

/-- The `from_domain` string of rule 3. -/
def evergreen_domain : List Char := str "@mail.evergreen-line.com"

/-- The `subject_contains` keyword list of rule 4. -/
def prealert_keywords : List (List Char) :=
  [str "pre-alert", str "pre alert", str "prealert"]

/-- The `subject_or_body_contains` keyword list of rule 5. -/
def arrival_notice_keywords : List (List Char) := [str "arrival notice"]

/-- Rule dictionary with `rule_id` 2 (Account Inquiry). -/
def rule_account_inquiry : Rule :=
  { rule_id := 2
    queue := .ACCOUNT_INQUIRY_US
    description := str "Account Inquiry emails with specific terms"
    scenario := str "Customer Account Setup/POA Request"
    action := str "Route to Account Management Team for customer onboarding or Power of Attorney processing"
    priority := str "HIGH"
    sla := str "4 hours"
    conditions :=
      { subject_contains := some account_inquiry_keywords
        check_attachments := true } }

/-- Rule dictionary with `rule_id` 3 (Evergreen Line domain). -/
def rule_evergreen : Rule :=
  { rule_id := 3
    queue := .ORD_SI_NON_UPS_SHIPMENTS
    description := str "Emails from Evergreen Line domain"
    scenario := str "External Shipping Partner Communication"
    action := str "Process as non-UPS shipment documentation from Evergreen Marine"
    priority := str "MEDIUM"
    sla := str "8 hours"
    conditions := { from_domain := some evergreen_domain } }

/-- Rule dictionary with `rule_id` 4 (RAFT Pre-Alert). -/
def rule_prealert : Rule :=
  { rule_id := 4
    queue := .RAFT_PRE_ALERT
    description := str "RAFT Pre-Alert emails"
    scenario := str "Vessel/Container Pre-Alert Notification"
    action := str "Prepare for incoming container arrival, notify warehouse teams"
    priority := str "HIGH"
    sla := str "2 hours"
    conditions :=
      { subject_contains := some prealert_keywords } }

/-- Rule dictionary with `rule_id` 5 (RAFT Arrival Notice). -/
def rule_arrival_notice : Rule :=
  { rule_id := 5
    queue := .RAFT_ARRIVAL_NOTICE
    description := str "RAFT Arrival Notice emails"
    scenario := str "Container/Shipment Arrival Confirmation"
    action := str "Update tracking systems, notify customers, coordinate pickup scheduling"
    priority := str "HIGH"
    sla := str "1 hour"
    conditions := { subject_or_body_contains := some arrival_notice_keywords } }

/-- Rule dictionary with `rule_id` 1 (default rule, declared last). -/
def rule_default : Rule :=
  { rule_id := 1
    queue := .SHIPMENT_INITIATION_BRKG_INLAND_SI
    description := str "Default rule - all other emails"
    scenario := str "General Shipment/Logistics Communication"
    action := str "Process as standard shipment initiation or brokerage inland SI request"
    priority := str "NORMAL"
    sla := str "24 hours"
    conditions := { default := true } }

/-- The rule list returned by
`EmailRoutingAgent._initialize_routing_rules`, in its declared order. -/
def initial_routing_rules : List Rule :=
  [rule_account_inquiry, rule_evergreen, rule_prealert,
   rule_arrival_notice, rule_default]

/-- `EmailRoutingAgent.check_text_contains`: false on empty text,
otherwise a case-insensitive any-keyword substring search. -/
def check_text_contains (text : List Char) (keywords : List (List Char)) : Bool :=
  if text.isEmpty then false
  else
    let text_lower := py_lower text
    keywords.any (fun keyword => py_in (py_lower keyword) text_lower)

/-- `EmailRoutingAgent.check_attachment_naming`: scan each attachment
filename with `check_text_contains`. -/
def check_attachment_naming (attachments keywords : List (List Char)) : Bool :=
  if attachments.isEmpty then false
  else attachments.any (fun attachment => check_text_contains attachment keywords)

/-- The `email_addr` intermediate of `EmailRoutingAgent.extract_from_domain`:
the angle-bracket group when the first regex matches, otherwise the whole
stripped string. -/
def extracted_address (from_address : List Char) : List Char :=
  match angle_group from_address with
  | some addr => addr
  | none => py_strip from_address

/-- `EmailRoutingAgent.extract_from_domain`: `@` followed by the group
captured by `re.search(r'@([^@]+)', email_addr)`, or the empty string
when that regex does not match. -/
def extract_from_domain (from_address : List Char) : List Char :=
  match at_group (extracted_address from_address) with
  | some domain => '@' :: domain
  | none => []

/-- The match-reason string of the rule-2 subject branch (the static part
of the Python f-string; the interpolated keyword list is static
configuration). -/
def msg_account_subject : List Char :=
  str "Subject contains account-related keywords"

/-- The match-reason string of the rule-2 attachment branch. -/
def msg_account_attachment : List Char :=
  str "Attachment names contain account-related keywords"

/-- The static part of the rule-3 positive match-reason string. -/
def msg_domain_match : List Char :=
  str "Email from Evergreen Line domain: "

/-- The static part of the rule-3 negative reason string. -/
def msg_domain_no_match : List Char :=
  str "Domain does not match configured domain: "

/-- The match-reason string of the rule-4 branch. -/
def msg_prealert : List Char :=
  str "Subject contains pre-alert keywords"

/-- The match-reason string of the rule-5 subject branch. -/
def msg_arrival_subject : List Char :=
  str "Subject contains arrival notice keywords"

/-- The match-reason string of the rule-5 body branch. -/
def msg_arrival_body : List Char :=
  str "Body contains arrival notice keywords"

/-- The match-reason string of the default rule. -/
def msg_default : List Char :=
  str "No specific rules matched, applying default routing"

/-- `EmailRoutingAgent.apply_routing_rule`: the sequence of
early-returning `if` blocks, translated as an `if`/`else` chain (every
Python block returns on all of its paths).  Returns the pair
`(matched, reason)`. -/
def apply_routing_rule (email_data : EmailData) (rule : Rule) : Bool × List Char :=
  let conditions := rule.conditions
  if conditions.subject_contains.isSome && rule.rule_id == 2 then
    let kws := conditions.subject_contains.getD []
    let subject_match := check_text_contains email_data.subject kws
    let attachment_match :=
      conditions.check_attachments &&
        check_attachment_naming email_data.attachments kws
    if subject_match then (true, msg_account_subject)
    else if attachment_match then (true, msg_account_attachment)
    else (false, [])
  else if conditions.from_domain.isSome then
    let from_domain := extract_from_domain email_data.«from»
    if from_domain == conditions.from_domain.getD [] then
      (true, msg_domain_match ++ from_domain)
    else
      (false, msg_domain_no_match ++ from_domain)
  else if conditions.subject_contains.isSome && rule.rule_id == 4 then
    if check_text_contains email_data.subject (conditions.subject_contains.getD []) then
      (true, msg_prealert)
    else (false, [])
  else if conditions.subject_or_body_contains.isSome then
    let kws := conditions.subject_or_body_contains.getD []
    if check_text_contains email_data.subject kws then (true, msg_arrival_subject)
    else if check_text_contains email_data.body kws then (true, msg_arrival_body)
    else (false, [])
  else if conditions.default then (true, msg_default)
  else (false, [])

/-- The `routing_result` dictionary assembled by
`EmailRoutingAgent.route_email` on a match.  The
`routing_timestamp` entry (`datetime.now()`) is external real-time data
and is omitted. -/
structure RoutingResult where
  routing_queue : List Char
  rule_matched : Nat
  rule_description : List Char
  scenario : List Char
  action : List Char
  priority : List Char
  sla : List Char
  match_reason : List Char
  email_data : EmailData
  confidence : List Char
deriving DecidableEq

/-- Build the routing result for a matched rule, including the binary
confidence label `"HIGH" if rule["rule_id"] != 1 else "DEFAULT"`. -/
def mk_routing_result (email_data : EmailData) (rule : Rule)
    (reason : List Char) : RoutingResult :=
  { routing_queue := rule.queue.value
    rule_matched := rule.rule_id
    rule_description := rule.description
    scenario := rule.scenario
    action := rule.action
    priority := rule.priority
    sla := rule.sla
    match_reason := reason
    email_data := email_data
    confidence := if rule.rule_id != 1 then str "HIGH" else str "DEFAULT" }

/-- The `for rule in self.routing_rules` loop of
`EmailRoutingAgent.route_email`: return the result of the first matching
rule, `none` when no rule matches (the Python
`raise Exception("No routing rule matched")` branch). -/
def find_routing_result (email_data : EmailData) : List Rule → Option RoutingResult
  | [] => none
  | rule :: rest =>
    let mr := apply_routing_rule email_data rule
    if mr.1 then some (mk_routing_result email_data rule mr.2)
    else find_routing_result email_data rest

/-- The `routing_stats` dictionary: a total counter and per-queue-value
counters. -/
structure RoutingStats where
  total_processed : Nat
  rules_matched : List Char → Nat

/-- The statistics created in `EmailRoutingAgent.__init__`: all counters
zero. -/
def initial_routing_stats : RoutingStats :=
  { total_processed := 0, rules_matched := fun _ => 0 }

/-- The mutable state of an `EmailRoutingAgent` instance. -/
structure AgentState where
  routing_rules : List Rule
  routing_stats : RoutingStats

/-- `EmailRoutingAgent.__init__`, parametrised by the rule list it
stores (the source instance stores `_initialize_routing_rules()`).
Construction performs no validation of the rule list and always
succeeds. -/
def agent_init (rules : List Rule) : AgentState :=
  { routing_rules := rules, routing_stats := initial_routing_stats }

/-- The agent the application constructs. -/
def email_routing_agent : AgentState := agent_init initial_routing_rules

/-- Increment `total_processed` and the matched queue's counter, as done
inside `route_email` after the routing result is assembled. -/
def update_routing_stats (stats : RoutingStats) (result : RoutingResult) : RoutingStats :=
  { total_processed := stats.total_processed + 1
    rules_matched := fun k =>
      if k = result.routing_queue then stats.rules_matched k + 1
      else stats.rules_matched k }

/-- `EmailRoutingAgent.route_email`.  Parsing (`parse_eml_file`, built on
the Python `email` library) is external input modelled by the
`parsed : Option EmailData` argument: `none` is an unparseable email
(empty dictionary), which the Python code turns into a caught exception
and an empty result with the statistics untouched.  The no-match
exception branch is likewise a caught failure returning an empty
result. -/
def route_email (agent : AgentState) (parsed : Option EmailData) :
    Option RoutingResult × AgentState :=
  match parsed with
  | none => (none, agent)
  | some email_data =>
    match find_routing_result email_data agent.routing_rules with
    | none => (none, agent)
    | some result =>
      (some result,
        { agent with routing_stats := update_routing_stats agent.routing_stats result })

/-- Routing decision of the canonical agent on an already-parsed email. -/
def route_email_data (email_data : EmailData) : Option RoutingResult :=
  find_routing_result email_data initial_routing_rules

/-- The RuleSet invariant as the spec states it (for comparison with the
code): exactly one default rule and pairwise-distinct rule ids. -/
def rule_set_invariant (rules : List Rule) : Bool :=
  ((rules.filter (fun r => r.conditions.default)).length == 1) &&
    decide (rules.map (fun r => r.rule_id)).Nodup

/-- Spec reading of the domain extractor (spec.md section 4.2 step 2, for
comparison with the code): within the extracted address, take the
substring after the LAST `@` character, and return it prefixed with
`@`; empty when the address has no `@`. -/
def spec_domain_after_last_at (from_address : List Char) : List Char :=
  let addr := extracted_address from_address
  if addr.contains '@' then
    '@' :: (addr.reverse.takeWhile (fun x => x != '@')).reverse
  else []

/-- `Char.ofNat` round-trips through `Char.toNat` on valid code points. -/
theorem char_toNat_ofNat_valid (n : Nat) (h : n.isValidChar) :
    (Char.ofNat n).toNat = n := by
  simp [Char.ofNat, h, Char.ofNatAux, Char.toNat, UInt32.toNat, BitVec.toNat_ofNatLt]

/-- Lower-casing a character twice is the same as doing it once. -/
theorem py_char_lower_idem (c : Char) :
    py_char_lower (py_char_lower c) = py_char_lower c := by
  by_cases h : 65 ≤ c.toNat ∧ c.toNat ≤ 90
  · have hval : (c.toNat + 32).isValidChar := Or.inl (by omega)
    have hlow : ¬ (65 ≤ (Char.ofNat (c.toNat + 32)).toNat ∧
        (Char.ofNat (c.toNat + 32)).toNat ≤ 90) := by
      rw [char_toNat_ofNat_valid _ hval]
      omega
    simp only [py_char_lower, if_pos h, if_neg hlow]
  · simp only [py_char_lower, if_neg h]

/-- Lower-casing a string twice is the same as doing it once. -/
theorem py_lower_idem (s : List Char) : py_lower (py_lower s) = py_lower s := by
  induction s with
  | nil => rfl
  | cons c t ih =>
    simp only [py_lower, List.map_cons] at ih ⊢
    rw [py_char_lower_idem, ih]

/-- Lower-casing preserves emptiness. -/
theorem py_lower_isEmpty (s : List Char) : (py_lower s).isEmpty = s.isEmpty := by
  cases s <;> rfl

/-- A list is an infix of a mapped list exactly when it is the image of an
infix of the original list. -/
theorem infix_map_iff (f : Char → Char) (l₁ l : List Char) :
    l₁ <:+: l.map f ↔ ∃ m, m <:+: l ∧ m.map f = l₁ := by
  constructor
  · rintro ⟨s, t, hst⟩
    have h1 : l.map f = s ++ (l₁ ++ t) := by
      rw [← hst, List.append_assoc]
    obtain ⟨a, b, rfl, ha, hb⟩ := List.map_eq_append_iff.mp h1
    obtain ⟨m, c, rfl, hm, hc⟩ := List.map_eq_append_iff.mp hb
    exact ⟨m, ⟨a, c, by rw [List.append_assoc]⟩, hm⟩
  · rintro ⟨m, ⟨s, t, rfl⟩, hm⟩
    exact ⟨s.map f, t.map f, by rw [← hm]; simp⟩

/-- `takeWhile` over an append stops exactly at the first failing
element. -/
theorem takeWhile_append_of_all (p : Char → Bool) (g post : List Char)
    (hg : ∀ c ∈ g, p c = true)
    (hpost : post = [] ∨ ∃ c t, post = c :: t ∧ p c = false) :
    (g ++ post).takeWhile p = g := by
  induction g with
  | nil =>
    rcases hpost with h | ⟨c, t, rfl, hc⟩
    · subst h; rfl
    · simp [List.takeWhile_cons, hc]
  | cons a g ih =>
    have ha : p a = true := hg a (List.mem_cons_self a g)
    have hg2 : ∀ c ∈ g, p c = true := fun c hc => hg c (List.mem_cons_of_mem a hc)
    simp [List.takeWhile_cons, ha, ih hg2]

/-- `dropWhile` over an append drops exactly up to the first failing
element. -/
theorem dropWhile_append_of_all (p : Char → Bool) (g post : List Char)
    (hg : ∀ c ∈ g, p c = true)
    (hpost : post = [] ∨ ∃ c t, post = c :: t ∧ p c = false) :
    (g ++ post).dropWhile p = post := by
  induction g with
  | nil =>
    rcases hpost with h | ⟨c, t, rfl, hc⟩
    · subst h; rfl
    · simp [List.dropWhile_cons, hc]
  | cons a g ih =>
    have ha : p a = true := hg a (List.mem_cons_self a g)
    have hg2 : ∀ c ∈ g, p c = true := fun c hc => hg c (List.mem_cons_of_mem a hc)
    simp [List.dropWhile_cons, ha, ih hg2]

/-- Where the second regex of `extract_from_domain` matches: on a string
decomposed as `pre ++ '@' :: g ++ post` with no `@` in `pre`, a nonempty
`@`-free `g`, and `post` empty or starting with `@`, the captured group
is exactly `g`. -/
theorem at_group_append (pre g post : List Char)
    (hpre : '@' ∉ pre) (hg : g ≠ []) (hg2 : '@' ∉ g)
    (hpost : post = [] ∨ ∃ t, post = '@' :: t) :
    at_group (pre ++ '@' :: g ++ post) = some g := by
  induction pre with
  | nil =>
    have hgp : ∀ c ∈ g, (c != '@') = true := by
      intro c hc
      simp only [bne_iff_ne, ne_eq]
      exact fun hEq => hg2 (hEq ▸ hc)
    have hpp : post = [] ∨ ∃ c t, post = c :: t ∧ (c != '@') = false := by
      rcases hpost with h | ⟨t, rfl⟩
      · exact Or.inl h
      · exact Or.inr ⟨'@', t, rfl, by simp⟩
    have htake : (g ++ post).takeWhile (fun x => x != '@') = g :=
      takeWhile_append_of_all _ g post hgp hpp
    have hne : g.isEmpty = false := by
      cases g with
      | nil => exact absurd rfl hg
      | cons a t => rfl
    simp [at_group, htake, hne]
  | cons a pre ih =>
    have ha : a ≠ '@' := fun hEq => hpre (hEq ▸ List.mem_cons_self a pre)
    have hpre2 : '@' ∉ pre := fun hmem => hpre (List.mem_cons_of_mem a hmem)
    simpa [at_group, ha] using ih hpre2

/-- Where the first regex of `extract_from_domain` matches: on a string
decomposed as `pre ++ '<' :: g ++ '>' :: post` with no `<` in `pre` and a
nonempty `>`-free `g`, the captured group is exactly `g`. -/
theorem angle_group_append (pre g post : List Char)
    (hpre : '<' ∉ pre) (hg : g ≠ []) (hg2 : '>' ∉ g) :
    angle_group (pre ++ '<' :: g ++ '>' :: post) = some g := by
  induction pre with
  | nil =>
    have hgp : ∀ c ∈ g, (c != '>') = true := by
      intro c hc
      simp only [bne_iff_ne, ne_eq]
      exact fun hEq => hg2 (hEq ▸ hc)
    have hpp : ('>' :: post) = [] ∨ ∃ c t, ('>' :: post) = c :: t ∧ (c != '>') = false :=
      Or.inr ⟨'>', post, rfl, by simp⟩
    have htake : (g ++ '>' :: post).takeWhile (fun x => x != '>') = g :=
      takeWhile_append_of_all _ g _ hgp hpp
    have hdrop : (g ++ '>' :: post).dropWhile (fun x => x != '>') = '>' :: post :=
      dropWhile_append_of_all _ g _ hgp hpp
    have hne : g.isEmpty = false := by
      cases g with
      | nil => exact absurd rfl hg
      | cons a t => rfl
    simp [angle_group, htake, hdrop, hne]
  | cons a pre ih =>
    have ha : a ≠ '<' := fun hEq => hpre (hEq ▸ List.mem_cons_self a pre)
    have hpre2 : '<' ∉ pre := fun hmem => hpre (List.mem_cons_of_mem a hmem)
    simpa [angle_group, ha] using ih hpre2

/-- A parsed email with every field empty. -/
def empty_email : EmailData := { }

/-- A parsed email whose subject satisfies both the rule-2 keyword
condition and the rule-5 arrival-notice condition. -/
def poa_arrival_email : EmailData := { subject := str "poa arrival notice" }

/-- The end-to-end scenario email of the spec: a pre-alert subject from
the Evergreen domain. -/
def evergreen_prealert_email : EmailData :=
  { subject := str "Shipment Pre-Alert - Container EVGU123456789"
    «from» := str "operations@mail.evergreen-line.com" }

/-- A sender with a display name and an angle-bracketed Evergreen
address. -/
def bracket_ops_email : EmailData :=
  { «from» := str "Ops <ops@mail.evergreen-line.com>" }

/-- A sender on a subdomain of the configured Evergreen domain. -/
def subdomain_email : EmailData :=
  { «from» := str "ops@sub.mail.evergreen-line.com" }

/-- A sender whose domain is the configured Evergreen domain in upper
case. -/
def uppercase_domain_email : EmailData :=
  { «from» := str "ops@MAIL.EVERGREEN-LINE.COM" }

/-- An email with empty subject and body and one POA attachment. -/
def poa_attachment_email : EmailData :=
  { attachments := [str "POA_signed.pdf"] }

/-- A rule list violating the RuleSet invariant: no default rule. -/
def no_default_rule_list : List Rule := [rule_evergreen]

/-- A rule list violating the RuleSet invariant: two default rules and a
duplicated rule id. -/
def duplicate_default_rule_list : List Rule := [rule_default, rule_default]

/-- The default rule's predicate matches every email. -/
theorem apply_routing_rule_default (e : EmailData) :
    apply_routing_rule e rule_default = (true, msg_default) := rfl

/-- When the last rule of a list matches an email, the rule-evaluation
loop returns a result. -/
theorem find_routing_result_append_of_matches (e : EmailData)
    (rules : List Rule) (r : Rule)
    (h : (apply_routing_rule e r).1 = true) :
    (find_routing_result e (rules ++ [r])).isSome = true := by
  induction rules with
  | nil => simp [find_routing_result, h]
  | cons r0 rest ih =>
    by_cases hb : (apply_routing_rule e r0).1 = true
    · simp [find_routing_result, hb]
    · simpa [find_routing_result, hb] using ih

/-- C1: for every parsed email record, evaluating the ordered rule list
returns exactly one routing decision (the loop yields a result, never
the no-rule-matched failure branch), and the default rule's predicate
returns true for every input. -/
theorem C1_routing_totality (e : EmailData) :
    (∃ result, route_email_data e = some result) ∧
    apply_routing_rule e rule_default = (true, msg_default) := by
  refine ⟨?_, apply_routing_rule_default e⟩
  have h := find_routing_result_append_of_matches e
    [rule_account_inquiry, rule_evergreen, rule_prealert, rule_arrival_notice]
    rule_default (by rw [apply_routing_rule_default])
  exact Option.isSome_iff_exists.mp h

/-- C2: rules are evaluated in declared order (ids 2, 3, 4, 5, 1), not
sorted by id; an email satisfying both the Account_Inquiry keyword
condition and the arrival-notice condition routes to Account_Inquiry_US
(first matching rule wins); the Evergreen pre-alert email routes to
ORD_SI-Non_UPS_Shipments because the domain rule precedes the
pre-alert keyword rule. -/
theorem C2_priority_order (e : EmailData)
    (hacct : check_text_contains e.subject account_inquiry_keywords = true)
    (harr : check_text_contains e.subject arrival_notice_keywords = true ∨
      check_text_contains e.body arrival_notice_keywords = true) :
    (route_email_data e).map (fun r => r.routing_queue) =
      some (str "Account_Inquiry_US") ∧
    initial_routing_rules.map (fun r => r.rule_id) = [2, 3, 4, 5, 1] ∧
    (route_email_data evergreen_prealert_email).map (fun r => r.routing_queue) =
      some (str "ORD_SI-Non_UPS_Shipments") := by
  refine ⟨?_, by decide, by decide⟩
  have happly : (apply_routing_rule e rule_account_inquiry).1 = true := by
    simp [apply_routing_rule, rule_account_inquiry, hacct]
  have hsome : route_email_data e =
      some (mk_routing_result e rule_account_inquiry
        (apply_routing_rule e rule_account_inquiry).2) := by
    simp only [route_email_data, initial_routing_rules, find_routing_result]
    rw [if_pos happly]
  rw [hsome, Option.map_some']
  rfl

/-- C2 witness: a concrete email whose subject contains both "poa" and
"arrival notice" routes to Account_Inquiry_US. -/
theorem C2_priority_order_witness :
    (route_email_data poa_arrival_email).map (fun r => r.routing_queue) =
      some (str "Account_Inquiry_US") :=
  (C2_priority_order poa_arrival_email (by decide) (Or.inl (by decide))).1

/-- Scanning past a non-`@` head character does not change the match of
the second regex of `extract_from_domain`. -/
theorem at_group_cons_ne (c : Char) (rest : List Char) (hc : c ≠ '@') :
    at_group (c :: rest) = at_group rest := by
  simp [at_group, hc]

/-- The second regex of `extract_from_domain` finds no group in a string
in which no `@` is immediately followed by a non-`@` character (this
covers `@`-free strings, strings ending in `@`, and runs of `@`s). -/
theorem at_group_eq_none (l : List Char) (h : has_at_group l = false) :
    at_group l = none := by
  induction l with
  | nil => rfl
  | cons c rest ih =>
    cases rest with
    | nil =>
      by_cases hc : c = '@'
      · subst hc; rfl
      · rw [at_group_cons_ne c [] hc]
        rfl
    | cons c2 rest2 =>
      simp only [has_at_group, Bool.or_eq_false_iff] at h
      obtain ⟨h1, h2⟩ := h
      have ih2 := ih h2
      by_cases hc : c = '@'
      · subst hc
        have hc2 : c2 = '@' := by simpa using h1
        subst hc2
        exact ih2
      · rw [at_group_cons_ne c (c2 :: rest2) hc]
        exact ih2

/-- The second regex of `extract_from_domain` captures exactly the
group after the FIRST `@` that is followed by a non-`@` character:
earlier `@`s are allowed in `pre` as long as each is immediately
followed (within the whole string) by another `@`. -/
theorem at_group_eq_some (pre g post : List Char)
    (hpre : has_at_group (pre ++ ['@']) = false)
    (hg : g ≠ []) (hg2 : '@' ∉ g)
    (hpost : post = [] ∨ ∃ t, post = '@' :: t) :
    at_group (pre ++ '@' :: g ++ post) = some g := by
  induction pre with
  | nil => exact at_group_append [] g post (by simp) hg hg2 hpost
  | cons a pre' ih =>
    have hbase : at_group (pre' ++ '@' :: g ++ post) = some g := by
      cases pre' with
      | nil => exact at_group_append [] g post (by simp) hg hg2 hpost
      | cons b pre'' =>
        apply ih
        have h2 := hpre
        simp only [List.cons_append, has_at_group, Bool.or_eq_false_iff] at h2
        exact h2.2
    by_cases ha : a = '@'
    · subst ha
      have hhead : ∃ t, pre' ++ '@' :: g ++ post = '@' :: t := by
        cases pre' with
        | nil => exact ⟨g ++ post, rfl⟩
        | cons b pre'' =>
          have h1 : ('@' == '@' && b != '@') = false := by
            have hp := hpre
            simp only [List.cons_append, has_at_group, Bool.or_eq_false_iff] at hp
            exact hp.1
          have hb : b = '@' := by simpa using h1
          subst hb
          exact ⟨pre'' ++ '@' :: g ++ post, by simp⟩
      obtain ⟨t, ht⟩ := hhead
      have hstep : at_group (('@' :: pre') ++ '@' :: g ++ post) =
          at_group ('@' :: '@' :: t) := by
        rw [List.append_assoc, List.cons_append, ← List.append_assoc, ht]
      rw [hstep]
      have hbase2 : at_group ('@' :: t) = some g := by
        rw [← ht]
        exact hbase
      exact hbase2
    · have hstep : at_group ((a :: pre') ++ '@' :: g ++ post) =
          at_group (pre' ++ '@' :: g ++ post) := by
        rw [List.cons_append]
        exact at_group_cons_ne a _ ha
      rw [hstep]
      exact hbase

/-- C3 counterexample: on the from-string "a@b@c" the code returns the
run after the FIRST at sign, "@b", while the claimed after-the-LAST-at
reading gives "@c". -/
theorem C3_counterexample :
    extract_from_domain (str "a@b@c") = str "@b" ∧
    spec_domain_after_last_at (str "a@b@c") = str "@c" ∧
    extract_from_domain (str "a@b@c") ≠ spec_domain_after_last_at (str "a@b@c") := by
  decide

/-- C3 amended: the extractor takes the text between angle brackets if
present (otherwise the whole trimmed string), then returns `@` followed
by the maximal run of non-`@` characters after the FIRST `@` of that
address that is followed by a non-`@` character (earlier `@`s all being
followed by `@`); if no `@` is present, or no `@` is followed by a
non-`@` character, it returns the empty string (and, being a total
function, it never raises).  The two conjuncts on `extract_from_domain`
cover every address: either some `@` is followed by a non-`@` character
(then the address decomposes as below around the first such `@`) or
none is. -/
theorem C3_amended_domain_extraction :
    (∀ s pre g post, extracted_address s = pre ++ '@' :: g ++ post →
      has_at_group (pre ++ ['@']) = false →
      g ≠ [] → '@' ∉ g → (post = [] ∨ ∃ t, post = '@' :: t) →
      extract_from_domain s = '@' :: g) ∧
    (∀ s, has_at_group (extracted_address s) = false →
      extract_from_domain s = []) ∧
    (∀ pre g post, '<' ∉ pre → g ≠ [] → '>' ∉ g →
      extracted_address (pre ++ '<' :: g ++ '>' :: post) = g) := by
  refine ⟨?_, ?_, ?_⟩
  · intro s pre g post haddr hpre hg hg2 hpost
    unfold extract_from_domain
    rw [haddr, at_group_eq_some pre g post hpre hg hg2 hpost]
  · intro s h
    unfold extract_from_domain
    rw [at_group_eq_none _ h]
  · intro pre g post hpre hg hg2
    unfold extracted_address
    rw [angle_group_append pre g post hpre hg hg2]

/-- C3 witness: the amended reading evaluated on the inputs the claim
covers only through the new hypotheses: "x@@y", whose first
non-`@`-followed `@` is preceded by another `@`, yields "@y"; "a@b@c"
yields "@b"; and "a@", in which no `@` is followed by a non-`@`
character, yields the empty string. -/
theorem C3_amended_witness :
    extract_from_domain (str "x@@y") = '@' :: str "y" ∧
    extract_from_domain (str "a@b@c") = '@' :: str "b" ∧
    extract_from_domain (str "a@") = [] :=
  ⟨C3_amended_domain_extraction.1 (str "x@@y") (str "x@") (str "y") []
      (by decide) (by decide) (by decide) (by decide) (Or.inl rfl),
   C3_amended_domain_extraction.1 (str "a@b@c") (str "a") (str "b") (str "@c")
      (by decide) (by decide) (by decide) (by decide) (Or.inr ⟨str "c", by decide⟩),
   C3_amended_domain_extraction.2.1 (str "a@") (by decide)⟩

/-- C4 counterexample: the extracted domain of
"ops@MAIL.EVERGREEN-LINE.COM" equals the configured domain up to letter
case, yet the domain rule does not match and the email routes to the
default queue — the comparison is case-sensitive. -/
theorem C4_counterexample :
    py_lower (extract_from_domain (str "ops@MAIL.EVERGREEN-LINE.COM")) =
      py_lower evergreen_domain ∧
    (apply_routing_rule uppercase_domain_email rule_evergreen).1 = false ∧
    (route_email_data uppercase_domain_email).map (fun r => r.routing_queue) =
      some (str "Shipment_Initiation_Brkg_Inland_SI") := by
  decide

/-- C4 amended: domain matching is exact and case-SENSITIVE on the
`@domain` form: the rule-3 predicate holds exactly when the extracted
domain is byte-for-byte the configured `@mail.evergreen-line.com`; the
angle-bracketed lower-case sender matches (routing to
ORD_SI-Non_UPS_Shipments) while a subdomain sender and an upper-case
variant do not (no subdomain, suffix, or wildcard matching). -/
theorem C4_domain_match_case_sensitive :
    (∀ e : EmailData,
      (apply_routing_rule e rule_evergreen).1 =
        (extract_from_domain e.«from» == evergreen_domain)) ∧
    (route_email_data bracket_ops_email).map (fun r => r.routing_queue) =
      some (str "ORD_SI-Non_UPS_Shipments") ∧
    (apply_routing_rule subdomain_email rule_evergreen).1 = false ∧
    (apply_routing_rule uppercase_domain_email rule_evergreen).1 = false := by
  refine ⟨?_, by decide, by decide, by decide⟩
  intro e
  cases h : (extract_from_domain e.«from» == evergreen_domain) with
  | true => simp [apply_routing_rule, rule_evergreen, h]
  | false => simp [apply_routing_rule, rule_evergreen, h]

/-- C5 counterexample: a rule list violating the RuleSet invariant (two
default rules and a duplicated rule id) is not rejected at engine
construction: the engine is constructed with exactly that list and
still serves a document (here routing it with the first default rule). -/
theorem C5_counterexample :
    rule_set_invariant duplicate_default_rule_list = false ∧
    (agent_init duplicate_default_rule_list).routing_rules =
      duplicate_default_rule_list ∧
    ((route_email (agent_init duplicate_default_rule_list)
        (some empty_email)).1.map (fun r => r.rule_matched)) = some 1 := by
  decide

/-- C5 amended: engine construction performs no validation of the rule
list and always succeeds; the hardcoded rule list does satisfy the
RuleSet invariant (exactly one default rule, distinct ids), so no
violation arises in practice; and for an invariant-violating list with
no default rule the failure surfaces at per-document evaluation (the
routing call returns no decision), not at construction. -/
theorem C5_no_construction_validation :
    (∀ rules : List Rule, (agent_init rules).routing_rules = rules) ∧
    rule_set_invariant initial_routing_rules = true ∧
    rule_set_invariant no_default_rule_list = false ∧
    (agent_init no_default_rule_list).routing_rules = no_default_rule_list ∧
    (route_email (agent_init no_default_rule_list) (some empty_email)).1 = none := by
  exact ⟨fun rules => rfl, by decide, by decide, by decide, by decide⟩

/-- C6: the keyword matcher returns false on empty text; on any text it
returns true exactly when some keyword occurs case-insensitively as a
substring (some substring of the text equals the keyword up to case);
consequently lower-casing the text, or the keywords, never changes the
result. -/
theorem C6_keyword_matcher (text : List Char) (kws : List (List Char)) :
    check_text_contains [] kws = false ∧
    (check_text_contains text kws = true ↔
      text ≠ [] ∧ ∃ kw ∈ kws, ∃ m, m <:+: text ∧ py_lower m = py_lower kw) ∧
    check_text_contains (py_lower text) kws = check_text_contains text kws ∧
    check_text_contains text (kws.map py_lower) = check_text_contains text kws := by
  refine ⟨rfl, ?_, ?_, ?_⟩
  · cases text with
    | nil => simp [check_text_contains]
    | cons c t =>
      rw [show check_text_contains (c :: t) kws =
          kws.any (fun keyword => py_in (py_lower keyword) (py_lower (c :: t))) from rfl]
      rw [List.any_eq_true]
      constructor
      · rintro ⟨kw, hkw, hin⟩
        simp only [py_in, decide_eq_true_eq] at hin
        obtain ⟨m, hm, hmap⟩ :=
          (infix_map_iff py_char_lower (py_lower kw) (c :: t)).mp hin
        exact ⟨List.cons_ne_nil c t, kw, hkw, m, hm, hmap⟩
      · rintro ⟨hne, kw, hkw, m, hm, hmap⟩
        refine ⟨kw, hkw, ?_⟩
        simp only [py_in, decide_eq_true_eq]
        exact (infix_map_iff py_char_lower (py_lower kw) (c :: t)).mpr ⟨m, hm, hmap⟩
  · simp only [check_text_contains, py_lower_isEmpty, py_lower_idem]
  · have hfun : ((fun keyword => py_in (py_lower keyword) (py_lower text)) ∘ py_lower) =
        (fun keyword => py_in (py_lower keyword) (py_lower text)) := by
      funext kw
      simp [Function.comp, py_lower_idem]
    simp only [check_text_contains, List.any_map, hfun]

/-- Any result of the rule-evaluation loop is built by
`mk_routing_result` from some rule of the list. -/
theorem find_routing_result_mem (e : EmailData) (rules : List Rule)
    (res : RoutingResult) (h : find_routing_result e rules = some res) :
    ∃ r ∈ rules, res = mk_routing_result e r (apply_routing_rule e r).2 := by
  induction rules with
  | nil => cases h
  | cons r0 rest ih =>
    by_cases hb : (apply_routing_rule e r0).1 = true
    · simp only [find_routing_result, if_pos hb, Option.some.injEq] at h
      exact ⟨r0, List.mem_cons_self r0 rest, h.symm⟩
    · simp only [find_routing_result, if_neg hb] at h
      obtain ⟨r, hr, hres⟩ := ih h
      exact ⟨r, List.mem_cons_of_mem r0 hr, hres⟩

/-- C7: for every routed email the confidence label is the fixed high
label exactly when the matched rule is not the default rule (id 1), and
the fixed default label exactly when it is. -/
theorem C7_binary_confidence (e : EmailData) (res : RoutingResult)
    (h : route_email_data e = some res) :
    (res.confidence = str "HIGH" ↔ res.rule_matched ≠ 1) ∧
    (res.confidence = str "DEFAULT" ↔ res.rule_matched = 1) := by
  obtain ⟨r, hr, rfl⟩ := find_routing_result_mem e initial_routing_rules res h
  fin_cases hr <;> dsimp only [mk_routing_result] <;> constructor <;> decide

/-- C7 witness: the default-routed empty email carries the DEFAULT
label and rule id 1. -/
theorem C7_binary_confidence_witness :
    (mk_routing_result empty_email rule_default msg_default).confidence =
      str "DEFAULT" ↔
    (mk_routing_result empty_email rule_default msg_default).rule_matched = 1 :=
  (C7_binary_confidence empty_email
    (mk_routing_result empty_email rule_default msg_default) (by decide)).2

/-- C8: attachment scanning applies the keyword matcher to each
filename (true when any filename matches any keyword), and the email
with empty subject and body whose attachment list is ["POA_signed.pdf"]
routes to Account_Inquiry_US via rule 2. -/
theorem C8_attachment_match (atts kws : List (List Char)) :
    check_attachment_naming atts kws =
      atts.any (fun filename => check_text_contains filename kws) ∧
    (route_email_data poa_attachment_email).map (fun r => r.routing_queue) =
      some (str "Account_Inquiry_US") ∧
    (route_email_data poa_attachment_email).map (fun r => r.rule_matched) =
      some 2 := by
  refine ⟨?_, by decide, by decide⟩
  cases atts with
  | nil => rfl
  | cons a t => rfl

/-- C9: the statistics counters change only when a routing decision is
returned: a failed attempt (unparseable email, or no matching rule)
leaves the agent — hence every counter — unchanged, while a successful
decision increments `total_processed` and exactly the matched queue's
counter. -/
theorem C9_stats_after_decision (agent : AgentState) (parsed : Option EmailData) :
    ((route_email agent parsed).1 = none → (route_email agent parsed).2 = agent) ∧
    (∀ res, (route_email agent parsed).1 = some res →
      (route_email agent parsed).2.routing_stats.total_processed =
        agent.routing_stats.total_processed + 1 ∧
      (route_email agent parsed).2.routing_stats.rules_matched res.routing_queue =
        agent.routing_stats.rules_matched res.routing_queue + 1 ∧
      ∀ k, k ≠ res.routing_queue →
        (route_email agent parsed).2.routing_stats.rules_matched k =
          agent.routing_stats.rules_matched k) ∧
    (route_email agent none).2 = agent := by
  refine ⟨?_, ?_, rfl⟩
  · cases parsed with
    | none => intro _; rfl
    | some e =>
      cases hfind : find_routing_result e agent.routing_rules with
      | none => intro _; simp [route_email, hfind]
      | some r0 =>
        intro hcon
        simp [route_email, hfind] at hcon
  · intro res hres
    cases parsed with
    | none => simp [route_email] at hres
    | some e =>
      cases hfind : find_routing_result e agent.routing_rules with
      | none => simp [route_email, hfind] at hres
      | some r0 =>
        simp only [route_email, hfind, Option.some.injEq] at hres
        subst hres
        refine ⟨?_, ?_, ?_⟩
        · simp [route_email, hfind, update_routing_stats]
        · simp [route_email, hfind, update_routing_stats]
        · intro k hk
          simp [route_email, hfind, update_routing_stats, hk]

/-- C9 witness: an unparseable email leaves the freshly constructed
agent unchanged. -/
theorem C9_stats_witness :
    (route_email email_routing_agent none).2 = email_routing_agent ∧
    (route_email email_routing_agent none).1 = none :=
  ⟨(C9_stats_after_decision email_routing_agent none).1 rfl, rfl⟩

/-- Rule evaluation reads only the from, subject, body, and attachments
fields of the parsed email. -/
theorem apply_routing_rule_fields (e1 e2 : EmailData) (r : Rule)
    (hf : e1.«from» = e2.«from») (hs : e1.subject = e2.subject)
    (hb : e1.body = e2.body) (ha : e1.attachments = e2.attachments) :
    apply_routing_rule e1 r = apply_routing_rule e2 r := by
  simp only [apply_routing_rule, hf, hs, hb, ha]

/-- Two emails agreeing on from, subject, body, and attachments receive
projections (matched rule id, queue, confidence) that agree, for any
rule list. -/
theorem find_routing_result_proj (e1 e2 : EmailData)
    (hf : e1.«from» = e2.«from») (hs : e1.subject = e2.subject)
    (hb : e1.body = e2.body) (ha : e1.attachments = e2.attachments)
    (rules : List Rule) :
    (find_routing_result e1 rules).map
      (fun r => (r.rule_matched, r.routing_queue, r.confidence)) =
    (find_routing_result e2 rules).map
      (fun r => (r.rule_matched, r.routing_queue, r.confidence)) := by
  induction rules with
  | nil => rfl
  | cons r0 rest ih =>
    by_cases hb0 : (apply_routing_rule e1 r0).1 = true
    · have hb2 : (apply_routing_rule e2 r0).1 = true := by
        rw [← apply_routing_rule_fields e1 e2 r0 hf hs hb ha]
        exact hb0
      simp only [find_routing_result, if_pos hb0, if_pos hb2, Option.map_some']
      rfl
    · have hb2 : ¬ (apply_routing_rule e2 r0).1 = true := by
        rw [← apply_routing_rule_fields e1 e2 r0 hf hs hb ha]
        exact hb0
      simp only [find_routing_result, if_neg hb0, if_neg hb2]
      exact ih

/-- C10: two parsed emails agreeing on from, subject, body, and
attachment names but differing arbitrarily in to, cc, date, reply-to,
priority, or message id receive the same matched rule id, queue, and
confidence label. -/
theorem C10_noninterference (e1 e2 : EmailData)
    (hf : e1.«from» = e2.«from») (hs : e1.subject = e2.subject)
    (hb : e1.body = e2.body) (ha : e1.attachments = e2.attachments) :
    (route_email_data e1).map
      (fun r => (r.rule_matched, r.routing_queue, r.confidence)) =
    (route_email_data e2).map
      (fun r => (r.rule_matched, r.routing_queue, r.confidence)) :=
  find_routing_result_proj e1 e2 hf hs hb ha initial_routing_rules

/-- An email whose non-routing fields are empty apart from the to
header. -/
def c10_email_a : EmailData := { «to» := str "a@ups.com" }

/-- An email agreeing with `c10_email_a` on the routing fields but
differing in every non-routing field. -/
def c10_email_b : EmailData :=
  { «to» := str "b@ups.com"
    cc := str "cc@elsewhere.example"
    date := str "Mon, 1 Jan 2024 00:00:00"
    reply_to := str "reply@elsewhere.example"
    priority := str "1"
    message_id := str "mid-12345" }

/-- C10 witness: the two concrete emails above receive identical
decision projections. -/
theorem C10_noninterference_witness :
    (route_email_data c10_email_a).map
      (fun r => (r.rule_matched, r.routing_queue, r.confidence)) =
    (route_email_data c10_email_b).map
      (fun r => (r.rule_matched, r.routing_queue, r.confidence)) :=
  C10_noninterference c10_email_a c10_email_b rfl rfl rfl rfl
